import Mathlib

/-
  Verification development for the prometheus-scrape charm library
  (src/prometheus_scrape/prometheus_scrape.py).

  The Python module is shallowly embedded: Python dicts become association
  lists (`List (String × α)`) with Python's insertion-order update semantics,
  Python strings become `String`, JSON/YAML values become the inductive
  `JVal`, and Python code that can raise an uncaught exception is modelled
  in `Except String`.  Every definition is translated from the source file;
  line references are given in the doc comments.
-/

namespace PrometheusScrape

/-- JSON/YAML-like values, the payloads stored in Python dicts that the
library manipulates generically (scrape jobs, alert rules, relabel configs). -/
inductive JVal where
  | str : String → JVal
  | arr : List JVal → JVal
  | obj : List (String × JVal) → JVal

/-- Python `d.get(k)` / `d[k]` on a dict represented as an association list:
the value at the first (unique, for genuine dicts) occurrence of key `k`. -/
def pyGet {α : Type} (d : List (String × α)) (k : String) : Option α :=
  (d.find? (fun kv => kv.1 == k)).map Prod.snd

/-- Python `d[k] = v` on a dict: replace the value in place if the key is
present (keeping its position), otherwise append the new pair at the end. -/
def pySet {α : Type} (d : List (String × α)) (k : String) (v : α) : List (String × α) :=
  match d with
  | [] => [(k, v)]
  | kv :: rest => if kv.1 == k then (k, v) :: rest else kv :: pySet rest k v

/-- Python `d.update(l)`: fold `pySet` over the items of `l` in order. -/
def pyUpdate {α : Type} (d l : List (String × α)) : List (String × α) :=
  l.foldl (fun acc kv => pySet acc kv.1 kv.2) d

/-- Python `"sep".join(parts)`. -/
def joinSep (sep : String) : List String → String
  | [] => ""
  | [s] => s
  | s :: t :: rest => s ++ sep ++ joinSep sep (t :: rest)

/-- Python `s.replace("/", "_")` (the separator is a single character, so a
character map is faithful). -/
def replaceSlash (s : String) : String :=
  ⟨s.data.map (fun c => if c == '/' then '_' else c)⟩

/-- Python `s.strip()`: drop whitespace from both ends. -/
def pyStrip (s : String) : String :=
  ⟨((s.data.dropWhile Char.isWhitespace).reverse.dropWhile Char.isWhitespace).reverse⟩

/-- Python `s.split(sep)` for a single-character separator: always returns
`count sep + 1` pieces, e.g. `"".split(":") == [""]`. -/
def splitOnChar (sep : Char) : List Char → List (List Char)
  | [] => [[]]
  | c :: rest =>
    let r := splitOnChar sep rest
    if c == sep then [] :: r
    else (c :: r.headD []) :: r.tail

/-- Python `s.replace(sub, repl)` for a non-empty `sub`: replace
non-overlapping occurrences left to right. -/
def replaceSub (sub repl : List Char) : List Char → List Char
  | [] => []
  | c :: rest =>
    if h : sub ≠ [] ∧ sub.isPrefixOf (c :: rest) then
      repl ++ replaceSub sub repl ((c :: rest).drop sub.length)
    else
      c :: replaceSub sub repl rest
termination_by l => l.length
decreasing_by
  all_goals simp only [List.length_drop, List.length_cons]
  · have hpos : 0 < sub.length := List.length_pos.mpr h.1
    omega
  · omega

/-- Python `s.replace(sub, repl)` lifted to `String`. -/
def pyReplace (s sub repl : String) : String :=
  ⟨replaceSub sub.data repl.data s.data⟩

/-- `JujuTopology` (source lines 187–345): the topology value type.  `unit`
and `charm_name` are optional in the source (`Optional[str] = ""`); the empty
string models their absence, exactly as the source's truthiness tests do. -/
structure JujuTopology where
  model : String
  model_uuid : String
  application : String
  unit : String
  charm_name : String
deriving DecidableEq

/-- `JujuTopology.STUB` (line 190), the placeholder replaced by `render`. -/
def STUB : String := "%%juju_topology%%"

/-- Key renaming applied by `as_dict(rename_keys=...)` (lines 321–325). -/
def renameKeys (rename : List (String × String)) (d : List (String × String)) :
    List (String × String) :=
  d.map (fun kv => ((pyGet rename kv.1).getD kv.1, kv.2))

/-- `JujuTopology.as_dict` (lines 298–327) without renaming: the ordered dict
of present fields; `unit` and `charm_name` are popped when falsy (empty). -/
def JujuTopology.as_dict (t : JujuTopology) : List (String × String) :=
  [("model", t.model), ("model_uuid", t.model_uuid), ("application", t.application)]
  ++ (if t.unit == "" then [] else [("unit", t.unit)])
  ++ (if t.charm_name == "" then [] else [("charm_name", t.charm_name)])

/-- `JujuTopology.as_promql_label_dict` (lines 329–340): rename `charm_name`
to `charm`, prefix every key with `juju_`, then pop `juju_unit` (the source
removes it so alert rules are evaluated per application, not per unit).
`ProviderTopology` inherits this method unchanged. -/
def JujuTopology.as_promql_label_dict (t : JujuTopology) : List (String × String) :=
  ((renameKeys [("charm_name", "charm")] t.as_dict).map
      (fun kv => ("juju_" ++ kv.1, kv.2))).filter
    (fun kv => kv.1 != "juju_unit")

/-- `JujuTopology.identifier` (lines 280–286): join the promql label values
with `_` and replace `/` by `_`. -/
def JujuTopology.identifier (t : JujuTopology) : String :=
  replaceSlash (joinSep "_" (t.as_promql_label_dict.map (fun kv => kv.2)))

/-- `JujuTopology.promql_labels` (lines 288–296). -/
def JujuTopology.promql_labels (t : JujuTopology) : String :=
  joinSep ", " (t.as_promql_label_dict.map (fun kv => kv.1 ++ "=\"" ++ kv.2 ++ "\""))

/-- `JujuTopology.render` (lines 342–344). -/
def JujuTopology.render (t : JujuTopology) (template : String) : String :=
  pyReplace template STUB t.promql_labels

/-- `ALLOWED_KEYS` (lines 23–36); the source's typo
`label_value_lenght_limit` is preserved. -/
def ALLOWED_KEYS : List String :=
  ["job_name", "metrics_path", "static_configs", "scrape_interval", "scrape_timeout",
   "proxy_url", "relabel_configs", "metrics_relabel_configs", "sample_limit",
   "label_limit", "label_name_length_limit", "label_value_lenght_limit"]

/-- `DEFAULT_JOB` (lines 37–40). -/
def DEFAULT_JOB : List (String × JVal) :=
  [("metrics_path", JVal.str "/metrics"),
   ("static_configs", JVal.arr [JVal.obj [("targets", JVal.arr [JVal.str "*:80"])]])]

/-- `_sanitize_scrape_configuration` (lines 160–184): copy `DEFAULT_JOB` and
update it with the allow-listed items of `job`. -/
def _sanitize_scrape_configuration (job : List (String × JVal)) : List (String × JVal) :=
  pyUpdate DEFAULT_JOB (job.filter (fun kv => ALLOWED_KEYS.contains kv.1))

/-- A Prometheus static-config group: `{targets: [...], labels: {...}}`
(source §Static Target Group; built at lines 1047–1109 and 1893–1905).
An absent `labels` key is modelled as the empty dict, matching the source's
`static_config.get("labels", {})`. -/
structure StaticConfig where
  targets : List String
  labels : List (String × String)
deriving DecidableEq

/-- A (sanitized) scrape job as received by
`MetricsEndpointConsumer._labeled_static_job_config` (line 946): only the
fields that the function reads are modelled; all other sanitized fields are
copied through unchanged by `job.copy()` and are irrelevant to the claims. -/
structure ScrapeJob where
  job_name : Option String
  static_configs : List StaticConfig
  relabel_configs : List JVal

/-- A labeled scrape job fragment: the dict built by
`_labeled_static_job_config` (lines 969–1026), and also the shape of the job
fragments the aggregator publishes (`_static_scrape_job`, lines 1871–1911). -/
structure Job where
  job_name : String
  static_configs : List StaticConfig
  relabel_configs : List JVal

/-- `host, port = target.split(":")` (line 999): Python raises `ValueError`
unless the split yields exactly two pieces, i.e. unless the target contains
exactly one `:`; the uncaught exception is modelled as `Except.error` carrying
the offending target. -/
def splitTarget (t : String) : Except String (String × String) :=
  match splitOnChar ':' t.data with
  | [h, p] => Except.ok (⟨h⟩, ⟨p⟩)
  | _ => Except.error t

/-- The target-partition loop of `_labeled_static_job_config` (lines
996–1003): wildcard targets (`host.strip() == "*"`) contribute their stripped
port to `ports`, all others go to `unitless_targets`; a malformed target
aborts with the source's `ValueError`. -/
def classifyTargets : List String → Except String (List String × List String)
  | [] => Except.ok ([], [])
  | t :: rest =>
    match splitTarget t with
    | Except.error e => Except.error e
    | Except.ok (h, p) =>
      match classifyTargets rest with
      | Except.error e => Except.error e
      | Except.ok (ports, unitless) =>
        if pyStrip h == "*" then Except.ok (pyStrip p :: ports, unitless)
        else Except.ok (ports, t :: unitless)

/-- `MetricsEndpointConsumer._set_juju_labels` (lines 1028–1045): copy the
labels and update them with the provider topology's promql label dict.  The
`scrape_metadata` dict argument of the source is modelled as the
`JujuTopology` value that `ProviderTopology.from_relation_data` builds
from it. -/
def _set_juju_labels (labels : List (String × String)) (topo : JujuTopology) :
    List (String × String) :=
  pyUpdate labels topo.as_promql_label_dict

/-- `MetricsEndpointConsumer._labeled_unitless_config` (lines 1047–1070). -/
def _labeled_unitless_config (targets : List String) (labels : List (String × String))
    (topo : JujuTopology) : StaticConfig :=
  { targets := targets, labels := _set_juju_labels labels topo }

/-- `MetricsEndpointConsumer._labeled_unit_config` (lines 1072–1109): the
per-unit group for a wildcard host, labeled with `juju_unit` and targeting
`address:port` for each declared wildcard port (or the bare address if no
ports were declared). -/
def _labeled_unit_config (unit_name host_address : String) (ports : List String)
    (labels : List (String × String)) (topo : JujuTopology) : StaticConfig :=
  { targets := if ports.isEmpty then [host_address]
               else ports.map (fun port => host_address ++ ":" ++ port),
    labels := pySet (_set_juju_labels labels topo) "juju_unit" unit_name }

/-- The `for static_config in static_configs` loop of
`_labeled_static_job_config` (lines 990–1019).  For each static config the
source first appends the unitless group (if any fixed-host target exists) and
then one per-unit group for every known host; the returned flag records
whether `"juju_unit"` was appended to the instance relabel rule's source
labels, which the source does exactly when at least one per-unit group was
emitted. -/
def labelStaticConfigs (hosts : List (String × String)) (topo : JujuTopology) :
    List StaticConfig → Except String (List StaticConfig × Bool)
  | [] => Except.ok ([], false)
  | sc :: rest =>
    match classifyTargets sc.targets with
    | Except.error e => Except.error e
    | Except.ok (ports, unitless) =>
      match labelStaticConfigs hosts topo rest with
      | Except.error e => Except.error e
      | Except.ok (groups, flag) =>
        Except.ok
          ((if unitless.isEmpty then [] else [_labeled_unitless_config unitless sc.labels topo])
            ++ hosts.map (fun hp => _labeled_unit_config hp.1 hp.2 ports sc.labels topo)
            ++ groups,
           !hosts.isEmpty || flag)

/-- The fields of `instance_relabel_config` (lines 980–985, 1018–1019):
source labels are the topology labels in fixed order, with `juju_unit`
appended exactly when `withUnit` holds. -/
def instance_relabel_fields (withUnit : Bool) : List (String × JVal) :=
  [("source_labels",
    JVal.arr ((["juju_model", "juju_model_uuid", "juju_application"]
               ++ (if withUnit then ["juju_unit"] else [])).map JVal.str)),
   ("separator", JVal.str "_"),
   ("target_label", JVal.str "instance"),
   ("regex", JVal.str "(.*)")]

/-- The instance relabel rule as a generic dict value. -/
def instance_relabel_config (withUnit : Bool) : JVal :=
  JVal.obj (instance_relabel_fields withUnit)

/-- `MetricsEndpointConsumer._labeled_static_job_config` (lines 946–1026):
compute the job name from the prefix and the job's own (optional) name,
relabel every static config, and append the instance relabel rule after all
user-declared relabel rules. -/
def _labeled_static_job_config (job : ScrapeJob) (prefx : String)
    (hosts : List (String × String)) (topo : JujuTopology) : Except String Job :=
  let name := job.job_name.getD ""
  let jn := if name == "" then prefx else prefx ++ "_" ++ name
  match labelStaticConfigs hosts topo job.static_configs with
  | Except.error e => Except.error e
  | Except.ok (configs, withUnit) =>
    Except.ok
      { job_name := jn,
        static_configs := configs,
        relabel_configs := job.relabel_configs ++ [instance_relabel_config withUnit] }

/-- An alert rule group: `{name: ..., rules: [...]}`.  Only the two fields the
source reads and writes are modelled. -/
structure AlertGroup where
  name : String
  rules : List JVal

/-- `_is_official_alert_rule_format` (lines 405–418): the dict has a
`groups` key. -/
def _is_official_alert_rule_format (d : List (String × JVal)) : Bool :=
  d.any (fun kv => kv.1 == "groups")

/-- `_is_single_alert_rule_format` (lines 421–439): the dict's key set
contains both `alert` and `expr`. -/
def _is_single_alert_rule_format (d : List (String × JVal)) : Bool :=
  d.any (fun kv => kv.1 == "alert") && d.any (fun kv => kv.1 == "expr")

/-- `AlertRules._group_name` (lines 534–557).  The relative sub-path of the
rule file below the rules root is passed in directly (`""` for a file sitting
in the root, where `os.path.relpath` yields `"."`); the path arithmetic
itself is filesystem behaviour outside the embedding. -/
def _group_name (topo : Option JujuTopology) (rel_path group_name : String) : String :=
  joinSep "_"
    (((match topo with
       | some t => [t.identifier]
       | none => []) ++ [rel_path, group_name, "alerts"]).filter (fun s => s != ""))

/-- `Except`-valued map, modelling a Python loop whose body may raise. -/
def mapExcept {α β : Type} (f : α → Except String β) : List α → Except String (List β)
  | [] => Except.ok []
  | a :: rest =>
    match f a with
    | Except.error e => Except.error e
    | Except.ok b =>
      match mapExcept f rest with
      | Except.error e => Except.error e
      | Except.ok bs => Except.ok (b :: bs)

/-- The per-rule metadata update of `AlertRules._from_file` (lines 521–530):
ensure a `labels` dict exists; when a topology is present, merge its promql
labels into the rule's labels (topology wins on collisions) and pass the
expression through `render`.  A rule that is not a mapping, or whose `labels`
or `expr` field cannot be used as the source expects, raises in Python
(uncaught); this is modelled as `Except.error`. -/
def annotateRule (topo : Option JujuTopology) : JVal → Except String JVal
  | JVal.obj d =>
    let d2 := if d.any (fun kv => kv.1 == "labels") then d
              else pySet d "labels" (JVal.obj [])
    (match topo with
     | none => Except.ok (JVal.obj d2)
     | some t =>
       match pyGet d2 "labels", pyGet d2 "expr" with
       | some (JVal.obj ls), some (JVal.str e) =>
         Except.ok (JVal.obj
           (pySet
             (pySet d2 "labels"
               (JVal.obj (pyUpdate ls
                 (t.as_promql_label_dict.map (fun kv => (kv.1, JVal.str kv.2))))))
             "expr" (JVal.str (t.render e))))
       | _, _ => Except.error "alert rule labels or expr unusable")
  | _ => Except.error "alert rule is not a mapping"

/-- One group of the `for alert_group in alert_groups` loop of `_from_file`
(lines 512–530): stamp the group name with topology and sub-path, annotate
every rule. -/
def annotateGroup (topo : Option JujuTopology) (rel_path : String) (g : AlertGroup) :
    Except String AlertGroup :=
  match mapExcept (annotateRule topo) g.rules with
  | Except.error e => Except.error e
  | Except.ok rs => Except.ok { name := _group_name topo rel_path g.name, rules := rs }

/-- Decoding one entry of an official-format `groups` list: the source reads
`alert_group["name"]` and `alert_group["rules"]`, raising (uncaught) when the
entry is not a mapping with those keys. -/
def decodeGroup : JVal → Except String AlertGroup
  | JVal.obj d =>
    match pyGet d "name", pyGet d "rules" with
    | some (JVal.str n), some (JVal.arr rs) => Except.ok { name := n, rules := rs }
    | _, _ => Except.error "alert group missing name or rules"
  | _ => Except.error "alert group is not a mapping"

/-- `AlertRules._from_file` (lines 478–532) on the parsed content of one rule
file.  `parsed = none` models a `yaml.safe_load` failure, which the source
catches, logs and turns into `[]`.  A document that is neither in official
nor in single-rule form is logged and skipped (`[]`).  A non-mapping document
has neither a `groups` key nor the `alert`/`expr` keys, so it is likewise
skipped. -/
def _from_file (topo : Option JujuTopology) (rel_path stem : String)
    (parsed : Option JVal) : Except String (List AlertGroup) :=
  match parsed with
  | none => Except.ok []
  | some (JVal.obj d) =>
    match (if _is_official_alert_rule_format d then
             match pyGet d "groups" with
             | some (JVal.arr gs) => mapExcept decodeGroup gs
             | _ => Except.error "groups key is not a list"
           else if _is_single_alert_rule_format d then
             Except.ok [{ name := stem, rules := [JVal.obj d] }]
           else Except.ok []) with
    | Except.error e => Except.error e
    | Except.ok gs => mapExcept (annotateGroup topo rel_path) gs
  | some _ => Except.ok []

/-- One rule file of a rules directory: its filename stem and its parsed
YAML content (`none` when `yaml.safe_load` raises). -/
structure RuleFile where
  stem : String
  parsed : Option JVal

/-- `AlertRules._from_dir` (lines 578–604) for a flat directory (every file
directly under the rules root, so each relative sub-path is empty): read
every file in glob order and concatenate the resulting groups; a file that
yields no groups contributes nothing. -/
def _from_dir (topo : Option JujuTopology) : List RuleFile → Except String (List AlertGroup)
  | [] => Except.ok []
  | f :: rest =>
    match _from_file topo "" f.stem f.parsed with
    | Except.error e => Except.error e
    | Except.ok gs =>
      match _from_dir topo rest with
      | Except.error e => Except.error e
      | Except.ok rest2 => Except.ok (gs ++ rest2)

/-- The merge step of `MetricsEndpointAggregator._update_prometheus_jobs`
(lines 1644–1649) and `_set_target_job_data` (lines 1623–1628): drop every
stored job whose `job_name` equals the updated job's name, then append the
updated job.  The serialized relation value is `json.dumps` of this list, a
deterministic function of it. -/
def _update_prometheus_jobs (jobs : List Job) (updated : Job) : List Job :=
  jobs.filter (fun job => updated.job_name != job.job_name) ++ [updated]

/-- The removal step of `MetricsEndpointAggregator._remove_prometheus_jobs`
(lines 1660–1684) for one prometheus relation holding `jobs`: if the list is
empty or contains no job named `job_name`, the stored data is left as is;
otherwise every job with that name is dropped and the first such job is
re-appended with only the static-config groups whose `juju_unit` label
differs from the departing unit, or not re-appended at all when no group
remains. -/
def _remove_prometheus_jobs (jobs : List Job) (job_name unit_name : String) : List Job :=
  if jobs.isEmpty then jobs
  else
    match jobs.filter (fun j => j.job_name == job_name) with
    | [] => jobs
    | changed :: _ =>
      let kept := jobs.filter (fun j => j.job_name != job_name)
      let configs_kept := changed.static_configs.filter
        (fun config => pyGet config.labels "juju_unit" != some unit_name)
      if configs_kept.isEmpty then kept
      else kept ++ [{ changed with static_configs := configs_kept }]

/-- Concrete topology used to instantiate universally quantified statements. -/
def topoWitness : JujuTopology := ⟨"m", "mu", "app", "", ""⟩

/-- Two topologies built from tuples that differ only in the unit field. -/
def topoGrafana0 : JujuTopology := ⟨"lma", "1de21551", "grafana", "grafana/0", ""⟩

/-- Same model, model uuid and application as `topoGrafana0`, other unit. -/
def topoGrafana1 : JujuTopology := ⟨"lma", "1de21551", "grafana", "grafana/1", ""⟩

/-- A per-unit static-config group of unit `app/0`. -/
def unitCfg0 : StaticConfig := ⟨["10.0.0.1:80"], [("juju_model", "m"), ("juju_unit", "app/0")]⟩

/-- A per-unit static-config group of unit `app/1`. -/
def unitCfg1 : StaticConfig := ⟨["10.0.0.2:80"], [("juju_model", "m"), ("juju_unit", "app/1")]⟩

/-- A job fragment for a peer application with two units. -/
def fragJob : Job := ⟨"jn", [unitCfg0, unitCfg1], []⟩

/-- An unrelated job fragment of another peer. -/
def otherJob : Job := ⟨"other", [], []⟩

/-- The wildcard job of the spec's example: `static_configs: [{targets: ["*:9090"]}]`. -/
def wildcardJob : ScrapeJob := ⟨none, [⟨["*:9090"], []⟩], []⟩

/-- The known unit addresses of the spec's example. -/
def wildcardHosts : List (String × String) := [("u/0", "10.0.0.1")]

/-- A rule file whose content fails YAML parsing. -/
def ruleFileBad : RuleFile := ⟨"bad", none⟩

/-- A valid single-rule file: a flat mapping with `alert` and `expr` keys. -/
def ruleFileCpu : RuleFile :=
  ⟨"cpu", some (JVal.obj [("alert", JVal.str "CPUOverUse"),
                          ("expr", JVal.str "process_cpu_seconds_total > 0.1")])⟩

/-- A string whose model, model uuid or application fields avoid both join
delimiters that `identifier` uses (`_` as separator, `/` normalized to `_`). -/
def delimFree (s : String) : Prop := '_' ∉ s.data ∧ '/' ∉ s.data

instance (s : String) : Decidable (delimFree s) :=
  inferInstanceAs (Decidable (_ ∧ _))

theorem pyGet_nil {α : Type} (k : String) : pyGet ([] : List (String × α)) k = none := rfl

theorem pyGet_cons {α : Type} (kv : String × α) (rest : List (String × α)) (k : String) :
    pyGet (kv :: rest) k = if kv.1 == k then some kv.2 else pyGet rest k := by
  by_cases h : (kv.1 == k) = true
  · simp [pyGet, List.find?_cons_of_pos _ h, h]
  · simp only [Bool.not_eq_true] at h
    simp [pyGet, List.find?_cons_of_neg, h]

theorem pyGet_pySet_self {α : Type} (d : List (String × α)) (k : String) (v : α) :
    pyGet (pySet d k v) k = some v := by
  induction d with
  | nil => simp [pySet, pyGet_cons]
  | cons kv rest ih =>
    by_cases h : (kv.1 == k) = true
    · simp [pySet, h, pyGet_cons]
    · simp only [Bool.not_eq_true] at h
      simp [pySet, h, pyGet_cons, ih]

theorem pyGet_pySet_ne {α : Type} (d : List (String × α)) (k k2 : String) (v : α)
    (h : k2 ≠ k) : pyGet (pySet d k v) k2 = pyGet d k2 := by
  induction d with
  | nil =>
    have : (k == k2) = false := by simpa using fun he => h he.symm
    simp [pySet, pyGet_cons, this]
  | cons kv rest ih =>
    by_cases hk : (kv.1 == k) = true
    · have hkk : (k == k2) = false := by simpa using fun he => h he.symm
      have hkv2 : (kv.1 == k2) = false := by
        have := beq_iff_eq.mp hk
        simpa [this] using fun he => h he.symm
      simp [pySet, hk, pyGet_cons, hkk, hkv2]
    · simp only [Bool.not_eq_true] at hk
      simp [pySet, hk, pyGet_cons, ih]

theorem mem_keys_pySet {α : Type} (d : List (String × α)) (k k2 : String) (v : α) :
    k2 ∈ (pySet d k v).map Prod.fst ↔ k2 ∈ d.map Prod.fst ∨ k2 = k := by
  induction d with
  | nil => simp [pySet]
  | cons kv rest ih =>
    by_cases h : (kv.1 == k) = true
    · have : kv.1 = k := beq_iff_eq.mp h
      simp [pySet, h, this]
      tauto
    · simp only [Bool.not_eq_true] at h
      simp [pySet, h, ih]
      tauto

theorem pyUpdate_nil {α : Type} (d : List (String × α)) : pyUpdate d [] = d := rfl

theorem pyUpdate_cons {α : Type} (d : List (String × α)) (kv : String × α)
    (l : List (String × α)) : pyUpdate d (kv :: l) = pyUpdate (pySet d kv.1 kv.2) l := rfl

theorem pyUpdate_append {α : Type} (d l1 l2 : List (String × α)) :
    pyUpdate d (l1 ++ l2) = pyUpdate (pyUpdate d l1) l2 :=
  List.foldl_append _ _ _ _

theorem mem_keys_pyUpdate {α : Type} (d l : List (String × α)) (k : String)
    (h : k ∈ (pyUpdate d l).map Prod.fst) :
    k ∈ d.map Prod.fst ∨ k ∈ l.map Prod.fst := by
  induction l generalizing d with
  | nil =>
    rw [pyUpdate_nil] at h
    exact Or.inl h
  | cons kv rest ih =>
    rw [pyUpdate_cons] at h
    rcases ih _ h with h2 | h2
    · rcases (mem_keys_pySet d kv.1 k kv.2).mp h2 with h3 | h3
      · exact Or.inl h3
      · exact Or.inr (by simp [h3])
    · exact Or.inr (by simp [h2])

theorem pyGet_eq_none_of_not_mem {α : Type} (d : List (String × α)) (k : String)
    (h : k ∉ d.map Prod.fst) : pyGet d k = none := by
  induction d with
  | nil => rfl
  | cons kv rest ih =>
    simp only [List.map_cons, List.mem_cons] at h
    push_neg at h
    have : (kv.1 == k) = false := by simpa using fun he => h.1 he.symm
    simp [pyGet_cons, this, ih h.2]

theorem pyGet_pyUpdate_not_mem {α : Type} (d l : List (String × α)) (k : String)
    (h : k ∉ l.map Prod.fst) : pyGet (pyUpdate d l) k = pyGet d k := by
  induction l generalizing d with
  | nil => rfl
  | cons kv rest ih =>
    simp only [List.map_cons, List.mem_cons] at h
    push_neg at h
    rw [pyUpdate_cons, ih _ h.2, pyGet_pySet_ne _ _ _ _ h.1]

theorem splitOnChar_ne_nil (sep : Char) (l : List Char) : splitOnChar sep l ≠ [] := by
  cases l with
  | nil => simp [splitOnChar]
  | cons c rest =>
    by_cases h : (c == sep) = true
    · simp [splitOnChar, h]
    · simp only [Bool.not_eq_true] at h
      simp [splitOnChar, h]

theorem splitOnChar_length (sep : Char) (l : List Char) :
    (splitOnChar sep l).length = l.count sep + 1 := by
  induction l with
  | nil => simp [splitOnChar, List.count_nil]
  | cons c rest ih =>
    by_cases h : c = sep
    · simp [splitOnChar, h, List.count_cons, ih]
    · have hb : (c == sep) = false := by simpa using h
      have hne := splitOnChar_ne_nil sep rest
      have hpos : 0 < (splitOnChar sep rest).length := List.length_pos.mpr hne
      simp only [splitOnChar, hb, Bool.false_eq_true, if_false, List.length_cons,
        List.length_tail, List.count_cons, h, if_false]
      omega

/-- C2: merging the same peer job fragment twice with identical input yields
the same aggregate job list as merging it once; since the published relation
value is `json.dumps` of this list, the serialized aggregates are
byte-identical as well. -/
theorem update_prometheus_jobs_idempotent (jobs : List Job) (updated : Job) :
    _update_prometheus_jobs (_update_prometheus_jobs jobs updated) updated =
      _update_prometheus_jobs jobs updated := by
  unfold _update_prometheus_jobs
  simp [List.filter_append, List.filter_filter]

/-- C6: sanitizing the empty job returns exactly the documented default job
`metrics_path = /metrics` with one static config targeting `*:80`. -/
theorem sanitize_empty_job_is_default :
    _sanitize_scrape_configuration [] =
      [("metrics_path", JVal.str "/metrics"),
       ("static_configs", JVal.arr [JVal.obj [("targets", JVal.arr [JVal.str "*:80"])]])] := rfl

/-- C8: aggregating a flat rule directory that contains one file whose
content fails YAML parsing and one valid single-rule file yields exactly one
alert group, built from the valid file and named after that file's stem, and
raises no error (the result is `Except.ok`). -/
theorem alert_dir_skips_malformed_file :
    _from_dir none [ruleFileBad, ruleFileCpu] =
      Except.ok [{ name := "cpu_alerts",
                   rules := [JVal.obj [("alert", JVal.str "CPUOverUse"),
                                       ("expr", JVal.str "process_cpu_seconds_total > 0.1"),
                                       ("labels", JVal.obj [])]] }] := rfl

theorem as_promql_label_dict_eq (t : JujuTopology) :
    t.as_promql_label_dict =
      [("juju_model", t.model), ("juju_model_uuid", t.model_uuid),
       ("juju_application", t.application)]
      ++ (if t.charm_name == "" then [] else [("juju_charm", t.charm_name)]) := by
  cases hu : t.unit == "" <;> cases hc : t.charm_name == "" <;>
    simp [JujuTopology.as_promql_label_dict, JujuTopology.as_dict, renameKeys,
      pyGet_cons, pyGet_nil, hu, hc]

theorem promql_values_of_no_charm (t : JujuTopology) (hc : t.charm_name = "") :
    t.as_promql_label_dict.map Prod.snd = [t.model, t.model_uuid, t.application] := by
  have hcb : (t.charm_name == "") = true := beq_iff_eq.mpr hc
  rw [as_promql_label_dict_eq, hcb]
  simp

theorem identifier_eq_of_no_charm (t : JujuTopology) (hc : t.charm_name = "") :
    t.identifier = replaceSlash (joinSep "_" [t.model, t.model_uuid, t.application]) := by
  rw [JujuTopology.identifier, promql_values_of_no_charm t hc]

theorem replaceSlash_eq_self (s : String) (h : '/' ∉ s.data) : replaceSlash s = s := by
  apply String.ext
  show s.data.map _ = s.data
  rw [List.map_congr_left (fun c hc => ?_)]
  · exact List.map_id' s.data
  · have : ¬ c = '/' := fun he => h (he ▸ hc)
    simp [this]

theorem append_sep_chars_inj (sep : Char) (a : List Char) :
    ∀ (a2 b b2 : List Char), sep ∉ a → sep ∉ a2 →
      a ++ sep :: b = a2 ++ sep :: b2 → a = a2 ∧ b = b2 := by
  induction a with
  | nil =>
    intro a2 b b2 _ ha2 h
    cases a2 with
    | nil => simpa using h
    | cons c t =>
      simp only [List.nil_append, List.cons_append, List.cons.injEq] at h
      exact absurd (List.mem_cons.mpr (Or.inl h.1)) ha2
  | cons c t ih =>
    intro a2 b b2 ha ha2 h
    cases a2 with
    | nil =>
      simp only [List.cons_append, List.nil_append, List.cons.injEq] at h
      exact absurd (List.mem_cons.mpr (Or.inl h.1.symm)) ha
    | cons c2 t2 =>
      simp only [List.cons_append, List.cons.injEq] at h
      have ha' : sep ∉ t := fun hm => ha (List.mem_cons_of_mem c hm)
      have ha2' : sep ∉ t2 := fun hm => ha2 (List.mem_cons_of_mem c2 hm)
      obtain ⟨h1, h2⟩ := ih t2 b b2 ha' ha2' h.2
      exact ⟨by rw [h.1, h1], h2⟩

theorem joinSep3_data (x y z : String) :
    (joinSep "_" [x, y, z]).data = x.data ++ '_' :: (y.data ++ '_' :: z.data) := by
  simp [joinSep, String.data_append]

theorem joinSep3_inj (x y z x2 y2 z2 : String)
    (hx : '_' ∉ x.data) (hy : '_' ∉ y.data)
    (hx2 : '_' ∉ x2.data) (hy2 : '_' ∉ y2.data)
    (h : joinSep "_" [x, y, z] = joinSep "_" [x2, y2, z2]) :
    x = x2 ∧ y = y2 ∧ z = z2 := by
  have hd : x.data ++ '_' :: (y.data ++ '_' :: z.data)
      = x2.data ++ '_' :: (y2.data ++ '_' :: z2.data) := by
    have := congrArg String.data h
    rwa [joinSep3_data, joinSep3_data] at this
  obtain ⟨h1, h2⟩ := append_sep_chars_inj '_' x.data x2.data _ _ hx hx2 hd
  obtain ⟨h3, h4⟩ := append_sep_chars_inj '_' y.data y2.data _ _ hy hy2 h2
  exact ⟨String.ext h1, String.ext h3, String.ext h4⟩

/-- C1 (counterexample): the claim's injectivity fails on the code.  Two
valid tuples that agree on model, model uuid and application but differ in
the unit (`grafana/0` vs `grafana/1`) give topology values whose
`identifier` strings are equal, because `as_promql_label_dict` pops the
`juju_unit` entry before `identifier` joins the values. -/
theorem identifier_not_injective_over_tuples :
    topoGrafana0 ≠ topoGrafana1 ∧
    topoGrafana0.unit ≠ topoGrafana1.unit ∧
    topoGrafana0.identifier = topoGrafana1.identifier := by
  refine ⟨by decide, by decide, ?_⟩
  rfl

/-- C1 (amended): `identifier` is stable across repeated evaluations, and it
is injective over distinct (model, model_uuid, application) triples whose
fields contain neither `_` nor `/`, for topology values without a charm
name; the unit field never influences `identifier`. -/
theorem identifier_stable_and_injective_on_triples
    (t1 t2 : JujuTopology)
    (h1m : delimFree t1.model) (h1u : delimFree t1.model_uuid)
    (h1a : delimFree t1.application)
    (h2m : delimFree t2.model) (h2u : delimFree t2.model_uuid)
    (h2a : delimFree t2.application)
    (hc1 : t1.charm_name = "") (hc2 : t2.charm_name = "") :
    t1.identifier = t1.identifier ∧
    (t1.identifier = t2.identifier →
      t1.model = t2.model ∧ t1.model_uuid = t2.model_uuid ∧
      t1.application = t2.application) := by
  refine ⟨rfl, fun h => ?_⟩
  rw [identifier_eq_of_no_charm t1 hc1, identifier_eq_of_no_charm t2 hc2] at h
  have hj : joinSep "_" [t1.model, t1.model_uuid, t1.application]
      = joinSep "_" [t2.model, t2.model_uuid, t2.application] := by
    have hs1 : '/' ∉ (joinSep "_" [t1.model, t1.model_uuid, t1.application]).data := by
      rw [joinSep3_data]
      simp only [List.mem_append, List.mem_cons]
      rintro (hm | hm | hm | hm | hm)
      · exact h1m.2 hm
      · exact absurd hm (by decide)
      · exact h1u.2 hm
      · exact absurd hm (by decide)
      · exact h1a.2 hm
    have hs2 : '/' ∉ (joinSep "_" [t2.model, t2.model_uuid, t2.application]).data := by
      rw [joinSep3_data]
      simp only [List.mem_append, List.mem_cons]
      rintro (hm | hm | hm | hm | hm)
      · exact h2m.2 hm
      · exact absurd hm (by decide)
      · exact h2u.2 hm
      · exact absurd hm (by decide)
      · exact h2a.2 hm
    rwa [replaceSlash_eq_self _ hs1, replaceSlash_eq_self _ hs2] at h
  exact joinSep3_inj _ _ _ _ _ _ h1m.1 h1u.1 h2m.1 h2u.1 hj

/-- Witness for the amended C1 theorem at concrete delimiter-free inputs. -/
theorem identifier_stable_and_injective_on_triples_witness :
    delimFree "lma" ∧ delimFree "1de21551" ∧ delimFree "prometheus" ∧
    delimFree "cos" ∧ delimFree "9ab5215" ∧ delimFree "grafana" ∧
    ((⟨"lma", "1de21551", "prometheus", "prometheus/0", ""⟩ : JujuTopology).identifier
        = (⟨"lma", "1de21551", "prometheus", "prometheus/0", ""⟩ : JujuTopology).identifier ∧
      ((⟨"lma", "1de21551", "prometheus", "prometheus/0", ""⟩ : JujuTopology).identifier
          = (⟨"cos", "9ab5215", "grafana", "", ""⟩ : JujuTopology).identifier →
        "lma" = "cos" ∧ "1de21551" = "9ab5215" ∧ "prometheus" = "grafana")) :=
  ⟨by decide, by decide, by decide, by decide, by decide, by decide,
   identifier_stable_and_injective_on_triples
     ⟨"lma", "1de21551", "prometheus", "prometheus/0", ""⟩
     ⟨"cos", "9ab5215", "grafana", "", ""⟩
     (by decide) (by decide) (by decide) (by decide) (by decide) (by decide) rfl rfl⟩

/-- C10: `as_promql_label_dict` of the provider/base variant never contains
the key `juju_unit`, even when the unit field is non-empty; consequently two
topology values that agree on everything but the unit produce identical
promql label dicts and identical `identifier` strings. -/
theorem promql_label_dict_omits_unit (t1 t2 : JujuTopology)
    (hm : t1.model = t2.model) (hmu : t1.model_uuid = t2.model_uuid)
    (ha : t1.application = t2.application) (hch : t1.charm_name = t2.charm_name) :
    "juju_unit" ∉ t1.as_promql_label_dict.map Prod.fst ∧
    t1.as_promql_label_dict = t2.as_promql_label_dict ∧
    t1.identifier = t2.identifier := by
  have heq : t1.as_promql_label_dict = t2.as_promql_label_dict := by
    rw [as_promql_label_dict_eq, as_promql_label_dict_eq, hm, hmu, ha, hch]
  refine ⟨?_, heq, ?_⟩
  · intro hmem
    obtain ⟨kv, hkv, hfst⟩ := List.mem_map.mp hmem
    have hpred := List.of_mem_filter hkv
    rw [hfst] at hpred
    simp at hpred
  · rw [JujuTopology.identifier, JujuTopology.identifier, heq]

/-- Witness for C10 at two concrete topologies differing only in the unit. -/
theorem promql_label_dict_omits_unit_witness :
    topoGrafana0.model = topoGrafana1.model ∧
    topoGrafana0.model_uuid = topoGrafana1.model_uuid ∧
    topoGrafana0.application = topoGrafana1.application ∧
    topoGrafana0.charm_name = topoGrafana1.charm_name ∧
    ("juju_unit" ∉ topoGrafana0.as_promql_label_dict.map Prod.fst ∧
      topoGrafana0.as_promql_label_dict = topoGrafana1.as_promql_label_dict ∧
      topoGrafana0.identifier = topoGrafana1.identifier) :=
  ⟨rfl, rfl, rfl, rfl, promql_label_dict_omits_unit topoGrafana0 topoGrafana1 rfl rfl rfl rfl⟩

/-- C3: in an aggregate whose only job fragment named `n` belongs to a peer
with two per-unit static-config groups, removing the departing unit `u1`
keeps the other unit's group `c2` byte-for-byte in the re-published
fragment; and for any departing unit, the fragment named `n` disappears from
the aggregate exactly when no static-config group survives the removal. -/
theorem remove_prometheus_jobs_spec
    (jobs : List Job) (changed : Job) (n u1 u2 : String) (c1 c2 : StaticConfig)
    (hfilter : jobs.filter (fun j => j.job_name == n) = [changed])
    (hsc : changed.static_configs = [c1, c2])
    (hc1 : pyGet c1.labels "juju_unit" = some u1)
    (hc2 : pyGet c2.labels "juju_unit" = some u2)
    (hne : u1 ≠ u2) :
    _remove_prometheus_jobs jobs n u1 =
      jobs.filter (fun j => j.job_name != n)
        ++ [{ changed with static_configs := [c2] }] ∧
    ∀ u, ((_remove_prometheus_jobs jobs n u).filter (fun j => j.job_name == n) = [] ↔
      changed.static_configs.filter
        (fun config => pyGet config.labels "juju_unit" != some u) = []) := by
  have hjobs : jobs ≠ [] := by
    intro he
    rw [he] at hfilter
    simp at hfilter
  have hie : jobs.isEmpty = false := by
    cases jobs with
    | nil => exact absurd rfl hjobs
    | cons a l => rfl
  have hcn : changed.job_name = n := by
    have hmem : changed ∈ jobs.filter (fun j => j.job_name == n) := by
      rw [hfilter]
      exact List.mem_cons_self _ _
    exact beq_iff_eq.mp ((List.mem_filter.mp hmem).2)
  have hkept : (jobs.filter (fun j => j.job_name != n)).filter
      (fun j => j.job_name == n) = [] := by
    rw [List.filter_filter]
    have : ∀ j : Job, ((j.job_name == n) && (j.job_name != n)) = false := by
      intro j
      simp [bne]
    simp only [this]
    exact List.filter_false _
  constructor
  · unfold _remove_prometheus_jobs
    rw [hie, hfilter]
    have hck : changed.static_configs.filter
        (fun config => pyGet config.labels "juju_unit" != some u1) = [c2] := by
      rw [hsc]
      have hb1 : (pyGet c1.labels "juju_unit" != some u1) = false := by
        simp [hc1]
      have hb2 : (pyGet c2.labels "juju_unit" != some u1) = true := by
        rw [hc2]
        exact bne_iff_ne.mpr (by simpa using fun he => hne he.symm)
      simp [List.filter_cons, hb1, hb2]
    simp [hck]
  · intro u
    unfold _remove_prometheus_jobs
    rw [hie, hfilter]
    by_cases hck : changed.static_configs.filter
        (fun config => pyGet config.labels "juju_unit" != some u) = []
    · have hie2 : (changed.static_configs.filter
          (fun config => pyGet config.labels "juju_unit" != some u)).isEmpty = true := by
        rw [hck]
        rfl
      simp only [Bool.false_eq_true, if_false, hie2, if_true]
      exact ⟨fun _ => hck, fun _ => hkept⟩
    · have hie2 : (changed.static_configs.filter
          (fun config => pyGet config.labels "juju_unit" != some u)).isEmpty = false := by
        cases he : changed.static_configs.filter
            (fun config => pyGet config.labels "juju_unit" != some u) with
        | nil => exact absurd he hck
        | cons a l => rfl
      simp only [Bool.false_eq_true, if_false, hie2]
      rw [List.filter_append, hkept]
      have : ({ changed with static_configs := (changed.static_configs.filter
          (fun config => pyGet config.labels "juju_unit" != some u)) } : Job).job_name
          = n := hcn
      constructor
      · intro habs
        simp [List.filter_cons, this] at habs
        exact absurd hcn habs
      · intro habs
        exact absurd habs hck

/-- Witness for C3 at a concrete two-unit aggregate. -/
theorem remove_prometheus_jobs_spec_witness :
    ([otherJob, fragJob].filter (fun j => j.job_name == "jn") = [fragJob]) ∧
    (fragJob.static_configs = [unitCfg0, unitCfg1]) ∧
    (pyGet unitCfg0.labels "juju_unit" = some "app/0") ∧
    (pyGet unitCfg1.labels "juju_unit" = some "app/1") ∧
    ("app/0" ≠ ("app/1" : String)) ∧
    (_remove_prometheus_jobs [otherJob, fragJob] "jn" "app/0" =
        [otherJob, fragJob].filter (fun j => j.job_name != "jn")
          ++ [{ fragJob with static_configs := [unitCfg1] }] ∧
      ∀ u, ((_remove_prometheus_jobs [otherJob, fragJob] "jn" u).filter
          (fun j => j.job_name == "jn") = [] ↔
        fragJob.static_configs.filter
          (fun config => pyGet config.labels "juju_unit" != some u) = [])) :=
  ⟨rfl, rfl, rfl, rfl, by decide,
   remove_prometheus_jobs_spec [otherJob, fragJob] fragJob "jn" "app/0" "app/1"
     unitCfg0 unitCfg1 rfl rfl rfl rfl (by decide)⟩

theorem labelStaticConfigs_flag (hosts : List (String × String)) (topo : JujuTopology) :
    ∀ (scs : List StaticConfig) (out : List StaticConfig × Bool),
      labelStaticConfigs hosts topo scs = Except.ok out →
      out.2 = (!scs.isEmpty && !hosts.isEmpty) := by
  intro scs
  induction scs with
  | nil =>
    intro out h
    simp only [labelStaticConfigs] at h
    cases h
    rfl
  | cons sc rest ih =>
    intro out h
    simp only [labelStaticConfigs] at h
    cases hct : classifyTargets sc.targets with
    | error e =>
      rw [hct] at h
      cases h
    | ok pu =>
      obtain ⟨ports, unitless⟩ := pu
      rw [hct] at h
      cases hrec : labelStaticConfigs hosts topo rest with
      | error e =>
        rw [hrec] at h
        cases h
      | ok gf =>
        obtain ⟨groups, flag⟩ := gf
        rw [hrec] at h
        cases h
        have hflag := ih (groups, flag) hrec
        simp only at hflag
        rw [hflag]
        cases hh : hosts.isEmpty <;> cases hr : rest.isEmpty <;> simp

/-- C5: whenever `_labeled_static_job_config` succeeds, the fragment's
relabel-config list is the input job's own relabel-config list followed by
exactly one appended instance relabel rule (target label `instance`,
separator `_`, source labels `juju_model`, `juju_model_uuid`,
`juju_application`, with `juju_unit` appended exactly when at least one
per-unit group was emitted, i.e. when both the static configs and the known
hosts are non-empty); the appended rule is always the last element, after
all user-declared relabel rules. -/
theorem labeled_job_appends_instance_relabel
    (job : ScrapeJob) (prefx : String) (hosts : List (String × String))
    (topo : JujuTopology) (frag : Job)
    (h : _labeled_static_job_config job prefx hosts topo = Except.ok frag) :
    frag.relabel_configs =
      job.relabel_configs
        ++ [instance_relabel_config (!job.static_configs.isEmpty && !hosts.isEmpty)] := by
  unfold _labeled_static_job_config at h
  cases hls : labelStaticConfigs hosts topo job.static_configs with
  | error e =>
    rw [hls] at h
    cases h
  | ok cw =>
    obtain ⟨configs, withUnit⟩ := cw
    rw [hls] at h
    have hflag := labelStaticConfigs_flag hosts topo job.static_configs
      (configs, withUnit) hls
    simp only at hflag
    cases h
    simp [hflag]

/-- Witness for C5 at a concrete empty job, hosts and topology. -/
theorem labeled_job_appends_instance_relabel_witness :
    (_labeled_static_job_config ⟨none, [], []⟩ "p" [] topoWitness =
      Except.ok ⟨"p", [], [instance_relabel_config false]⟩) ∧
    ((⟨"p", [], [instance_relabel_config false]⟩ : Job).relabel_configs =
      (⟨none, [], []⟩ : ScrapeJob).relabel_configs
        ++ [instance_relabel_config
            (!(⟨none, [], []⟩ : ScrapeJob).static_configs.isEmpty
              && !([] : List (String × String)).isEmpty)]) :=
  ⟨rfl,
   labeled_job_appends_instance_relabel ⟨none, [], []⟩ "p" [] topoWitness
     ⟨"p", [], [instance_relabel_config false]⟩ rfl⟩

/-- C4: with known unit addresses `u/0 -> 10.0.0.1` and a job whose static
configs are `[{targets: ["*:9090"]}]`, the labeled fragment has exactly one
static-config group; that group is a per-unit group with targets
`["10.0.0.1:9090"]` and a `juju_unit = "u/0"` label, and the fragment's last
(and only) relabel config is the instance rule whose source labels end in
`juju_unit`. -/
theorem labeled_job_wildcard_example (topo : JujuTopology) (prefx : String) :
    ∃ g, _labeled_static_job_config wildcardJob prefx wildcardHosts topo =
        Except.ok { job_name := prefx, static_configs := [g],
                    relabel_configs := [instance_relabel_config true] } ∧
      g.targets = ["10.0.0.1:9090"] ∧
      pyGet g.labels "juju_unit" = some "u/0" ∧
      pyGet (instance_relabel_fields true) "source_labels" =
        some (JVal.arr [JVal.str "juju_model", JVal.str "juju_model_uuid",
                        JVal.str "juju_application", JVal.str "juju_unit"]) ∧
      [JVal.str "juju_model", JVal.str "juju_model_uuid", JVal.str "juju_application",
        JVal.str "juju_unit"].getLast? = some (JVal.str "juju_unit") := by
  refine ⟨_labeled_unit_config "u/0" "10.0.0.1" ["9090"] [] topo, rfl, rfl, ?_, rfl, rfl⟩
  show pyGet (pySet (_set_juju_labels [] topo) "juju_unit" "u/0") "juju_unit" = some "u/0"
  exact pyGet_pySet_self _ _ _

theorem contains_of_mem_default_keys (k : String)
    (h : k ∈ DEFAULT_JOB.map Prod.fst) : ALLOWED_KEYS.contains k = true := by
  simp only [DEFAULT_JOB, List.map_cons, List.map_nil, List.mem_cons,
    List.not_mem_nil, or_false] at h
  rcases h with rfl | rfl <;> decide

/-- C7: every key of a sanitized job is allow-listed or a default-job key;
input keys outside the allow-list are silently dropped; and every
allow-listed input key survives sanitization with its input value (for a
genuine dict input, i.e. one with no duplicate keys). -/
theorem sanitize_respects_allowlist (job : List (String × JVal))
    (hnd : (job.map Prod.fst).Nodup) :
    (∀ k ∈ (_sanitize_scrape_configuration job).map Prod.fst,
      ALLOWED_KEYS.contains k = true ∨ k ∈ DEFAULT_JOB.map Prod.fst) ∧
    (∀ k ∈ job.map Prod.fst, ALLOWED_KEYS.contains k = false →
      pyGet (_sanitize_scrape_configuration job) k = none) ∧
    (∀ k v, (k, v) ∈ job → ALLOWED_KEYS.contains k = true →
      pyGet (_sanitize_scrape_configuration job) k = some v) := by
  have hkeys : ∀ k ∈ (_sanitize_scrape_configuration job).map Prod.fst,
      ALLOWED_KEYS.contains k = true ∨ k ∈ DEFAULT_JOB.map Prod.fst := by
    intro k hk
    rcases mem_keys_pyUpdate _ _ _ hk with h2 | h2
    · exact Or.inr h2
    · obtain ⟨kv, hkv, hfst⟩ := List.mem_map.mp h2
      have := List.of_mem_filter hkv
      rw [hfst] at this
      exact Or.inl this
  refine ⟨hkeys, ?_, ?_⟩
  · intro k hk hnall
    apply pyGet_eq_none_of_not_mem
    intro hmem
    rcases hkeys k hmem with h2 | h2
    · rw [hnall] at h2
      cases h2
    · rw [contains_of_mem_default_keys k h2] at hnall
      cases hnall
  · intro k v hkv hallow
    have hmemf : (k, v) ∈ job.filter (fun kv => ALLOWED_KEYS.contains kv.1) :=
      List.mem_filter.mpr ⟨hkv, hallow⟩
    obtain ⟨s, t2, hst⟩ := List.append_of_mem hmemf
    have hnodupf : ((job.filter (fun kv => ALLOWED_KEYS.contains kv.1)).map Prod.fst).Nodup :=
      hnd.sublist ((List.filter_sublist job).map Prod.fst)
    rw [hst] at hnodupf
    simp only [List.map_append, List.map_cons] at hnodupf
    have hknot : k ∉ t2.map Prod.fst :=
      (List.nodup_cons.mp hnodupf.of_append_right).1
    unfold _sanitize_scrape_configuration
    rw [hst, pyUpdate_append, pyUpdate_cons]
    rw [pyGet_pyUpdate_not_mem _ _ _ hknot]
    exact pyGet_pySet_self _ _ _

/-- Witness for C7 at a concrete job mixing allow-listed and foreign keys. -/
theorem sanitize_respects_allowlist_witness :
    ((([("job_name", JVal.str "x"), ("foo", JVal.str "y")] :
        List (String × JVal)).map Prod.fst).Nodup) ∧
    ((∀ k ∈ (_sanitize_scrape_configuration
          [("job_name", JVal.str "x"), ("foo", JVal.str "y")]).map Prod.fst,
        ALLOWED_KEYS.contains k = true ∨ k ∈ DEFAULT_JOB.map Prod.fst) ∧
      (∀ k ∈ ([("job_name", JVal.str "x"), ("foo", JVal.str "y")] :
          List (String × JVal)).map Prod.fst, ALLOWED_KEYS.contains k = false →
        pyGet (_sanitize_scrape_configuration
          [("job_name", JVal.str "x"), ("foo", JVal.str "y")]) k = none) ∧
      (∀ k v, (k, v) ∈ ([("job_name", JVal.str "x"), ("foo", JVal.str "y")] :
          List (String × JVal)) → ALLOWED_KEYS.contains k = true →
        pyGet (_sanitize_scrape_configuration
          [("job_name", JVal.str "x"), ("foo", JVal.str "y")]) k = some v)) :=
  ⟨by decide,
   sanitize_respects_allowlist [("job_name", JVal.str "x"), ("foo", JVal.str "y")]
     (by decide)⟩

theorem splitTarget_error_of_count_ne_one (t : String) (h : t.data.count ':' ≠ 1) :
    splitTarget t = Except.error t := by
  have hlen := splitOnChar_length ':' t.data
  unfold splitTarget
  rcases hsp : splitOnChar ':' t.data with _ | ⟨a, _ | ⟨b, _ | ⟨c, l⟩⟩⟩
  · rfl
  · rfl
  · rw [hsp] at hlen
    simp only [List.length_cons, List.length_nil] at hlen
    exact absurd (show t.data.count ':' = 1 by omega) h
  · rfl

/-- C9: a static-config target string without exactly one `:` separator is
rejected: `target.split(":")` cannot be unpacked into host and port, the
source raises `ValueError`, and the whole job-labeling operation aborts with
that error instead of silently assigning the target to the wildcard or the
fixed-host partition. -/
theorem malformed_target_rejected (t : String) (h : t.data.count ':' ≠ 1) :
    splitTarget t = Except.error t ∧
    ∀ (labels : List (String × String)) (rcs : List JVal) (nm : Option String)
      (prefx : String) (hosts : List (String × String)) (topo : JujuTopology),
      _labeled_static_job_config ⟨nm, [⟨[t], labels⟩], rcs⟩ prefx hosts topo =
        Except.error t := by
  have hsp := splitTarget_error_of_count_ne_one t h
  refine ⟨hsp, ?_⟩
  intro labels rcs nm prefx hosts topo
  have hcl : classifyTargets [t] = Except.error t := by
    simp [classifyTargets, hsp]
  have hls : labelStaticConfigs hosts topo [⟨[t], labels⟩] = Except.error t := by
    simp [labelStaticConfigs, hcl]
  unfold _labeled_static_job_config
  rw [hls]

/-- Witness for C9 at the colon-free target `host`. -/
theorem malformed_target_rejected_witness :
    ("host".data.count ':' ≠ 1) ∧
    splitTarget "host" = Except.error "host" ∧
    _labeled_static_job_config ⟨none, [⟨["host"], []⟩], []⟩ "p" [] topoWitness =
      Except.error "host" :=
  ⟨by decide, (malformed_target_rejected "host" (by decide)).1,
   (malformed_target_rejected "host" (by decide)).2 [] [] none "p" [] topoWitness⟩

end PrometheusScrape
